import Mathlib

/-!
Verification of the checkpoint/rollback subsystem (`src/Checkpoint.cpp`).

The development shallowly embeds the functions of `Checkpoint.cpp`:
the block device is a byte-addressed map `Nat → Nat`, the bow-log restore
engine (`cp_restoreCheckpoint`, its remapped `read` helpers and the
table-driven `crc32`) is translated into executable Lean functions, and the
checkpoint lifecycle operations (`cp_startCheckpoint`, `cp_commitChanges`,
`cp_markBootAttempt`, `cp_needsCheckpoint`, `cp_needsRollback`) are
translated with the metadata file and external HAL modelled explicitly.
-/

namespace Checkpoint

/-- A block device, byte-addressed: index `i` holds the byte at offset `i`. -/
def Device : Type := Nat → Nat

/-- One byte of the device (reads are always reduced mod 256). -/
def readByte (d : Device) (i : Nat) : Nat := d i % 256

/-- The `n` bytes of the device starting at byte offset `off`. -/
def readBytes (d : Device) (off n : Nat) : List Nat :=
  (List.range n).map (fun j => readByte d (off + j))

/-- Overwrite the device with the first `n` bytes of the list `bs`, starting
at byte offset `off` (the effect of `device.seekg(pos)` followed by
`device.write(&buffer[0], n)` in `cp_restoreCheckpoint`). -/
def writeBytes (d : Device) (off n : Nat) (bs : List Nat) : Device :=
  fun i => if off ≤ i ∧ i < off + n then bs.getD (i - off) 0 else d i

/-- Little-endian value of the `k` bytes at offset `off`, as the C++ code
obtains by reinterpreting packed little-endian structure fields. -/
def leVal (d : Device) (off : Nat) : Nat → Nat
  | 0 => 0
  | k + 1 => readByte d off + 256 * leVal d (off + 1) k

/-- The packed `log_entry` structure of `Checkpoint.cpp` (`source`/`dest` are
`sector_t = uint64_t`, `size`/`checksum` are `uint32_t`). -/
structure LogEntry where
  source : Nat
  dest : Nat
  size : Nat
  checksum : Nat
deriving DecidableEq

/-- The condition `sector >= l->source && (sector - l->source) * kSectorSize
< l->size` of the remapping `read` (uint64 arithmetic, hence the mod). -/
def covers (l : LogEntry) (s : Nat) : Prop :=
  l.source ≤ s ∧ (s - l.source) * 512 % 2 ^ 64 < l.size

instance (l : LogEntry) (s : Nat) : Decidable (covers l s) := by
  unfold covers; infer_instance

/-- One iteration of the remapping loop in `read`: redirect `sec` through
log entry `l` when `l` covers it. -/
def remapStep (sec : Nat) (l : LogEntry) : Nat :=
  if covers l sec then (sec - l.source + l.dest) % 2 ^ 64 else sec

/-- The sector-remapping loop of `static void read(...)`: the accepted log
entries are scanned from the most recently appended one backwards
(`logs.rbegin()` to `logs.rend()`), each covering entry redirecting the
sector, with no early exit after a match. -/
def remapSector (logs : List LogEntry) (sec : Nat) : Nat :=
  logs.foldr (fun l s => remapStep s l) sec

/-- Resolution as the specification describes it: only the single newest
(most recently appended) covering entry redirects the read, and no further
redirection happens afterwards. This definition follows the spec's words,
for comparison with `remapSector`, which is translated from the source. -/
def newestMatchResolve (logs : List LogEntry) (sec : Nat) : Nat :=
  match logs.reverse.find? (fun l => decide (covers l sec)) with
  | some l => (sec - l.source + l.dest) % 2 ^ 64
  | none => sec

/-- Entries as used in the remapping examples below. -/
def entA : LogEntry := ⟨8, 16, 4096, 0⟩

/-- Second example entry, appended to the table after `entA`. -/
def entB : LogEntry := ⟨0, 8, 4096, 0⟩

def crcTable : List Nat := [
  0x00000000, 0x77073096, 0xEE0E612C, 0x990951BA, 0x076DC419, 0x706AF48F, 0xE963A535, 0x9E6495A3,
  0x0EDB8832, 0x79DCB8A4, 0xE0D5E91E, 0x97D2D988, 0x09B64C2B, 0x7EB17CBD, 0xE7B82D07, 0x90BF1D91,
  0x1DB71064, 0x6AB020F2, 0xF3B97148, 0x84BE41DE, 0x1ADAD47D, 0x6DDDE4EB, 0xF4D4B551, 0x83D385C7,
  0x136C9856, 0x646BA8C0, 0xFD62F97A, 0x8A65C9EC, 0x14015C4F, 0x63066CD9, 0xFA0F3D63, 0x8D080DF5,
  0x3B6E20C8, 0x4C69105E, 0xD56041E4, 0xA2677172, 0x3C03E4D1, 0x4B04D447, 0xD20D85FD, 0xA50AB56B,
  0x35B5A8FA, 0x42B2986C, 0xDBBBC9D6, 0xACBCF940, 0x32D86CE3, 0x45DF5C75, 0xDCD60DCF, 0xABD13D59,
  0x26D930AC, 0x51DE003A, 0xC8D75180, 0xBFD06116, 0x21B4F4B5, 0x56B3C423, 0xCFBA9599, 0xB8BDA50F,
  0x2802B89E, 0x5F058808, 0xC60CD9B2, 0xB10BE924, 0x2F6F7C87, 0x58684C11, 0xC1611DAB, 0xB6662D3D,
  0x76DC4190, 0x01DB7106, 0x98D220BC, 0xEFD5102A, 0x71B18589, 0x06B6B51F, 0x9FBFE4A5, 0xE8B8D433,
  0x7807C9A2, 0x0F00F934, 0x9609A88E, 0xE10E9818, 0x7F6A0DBB, 0x086D3D2D, 0x91646C97, 0xE6635C01,
  0x6B6B51F4, 0x1C6C6162, 0x856530D8, 0xF262004E, 0x6C0695ED, 0x1B01A57B, 0x8208F4C1, 0xF50FC457,
  0x65B0D9C6, 0x12B7E950, 0x8BBEB8EA, 0xFCB9887C, 0x62DD1DDF, 0x15DA2D49, 0x8CD37CF3, 0xFBD44C65,
  0x4DB26158, 0x3AB551CE, 0xA3BC0074, 0xD4BB30E2, 0x4ADFA541, 0x3DD895D7, 0xA4D1C46D, 0xD3D6F4FB,
  0x4369E96A, 0x346ED9FC, 0xAD678846, 0xDA60B8D0, 0x44042D73, 0x33031DE5, 0xAA0A4C5F, 0xDD0D7CC9,
  0x5005713C, 0x270241AA, 0xBE0B1010, 0xC90C2086, 0x5768B525, 0x206F85B3, 0xB966D409, 0xCE61E49F,
  0x5EDEF90E, 0x29D9C998, 0xB0D09822, 0xC7D7A8B4, 0x59B33D17, 0x2EB40D81, 0xB7BD5C3B, 0xC0BA6CAD,
  0xEDB88320, 0x9ABFB3B6, 0x03B6E20C, 0x74B1D29A, 0xEAD54739, 0x9DD277AF, 0x04DB2615, 0x73DC1683,
  0xE3630B12, 0x94643B84, 0x0D6D6A3E, 0x7A6A5AA8, 0xE40ECF0B, 0x9309FF9D, 0x0A00AE27, 0x7D079EB1,
  0xF00F9344, 0x8708A3D2, 0x1E01F268, 0x6906C2FE, 0xF762575D, 0x806567CB, 0x196C3671, 0x6E6B06E7,
  0xFED41B76, 0x89D32BE0, 0x10DA7A5A, 0x67DD4ACC, 0xF9B9DF6F, 0x8EBEEFF9, 0x17B7BE43, 0x60B08ED5,
  0xD6D6A3E8, 0xA1D1937E, 0x38D8C2C4, 0x4FDFF252, 0xD1BB67F1, 0xA6BC5767, 0x3FB506DD, 0x48B2364B,
  0xD80D2BDA, 0xAF0A1B4C, 0x36034AF6, 0x41047A60, 0xDF60EFC3, 0xA867DF55, 0x316E8EEF, 0x4669BE79,
  0xCB61B38C, 0xBC66831A, 0x256FD2A0, 0x5268E236, 0xCC0C7795, 0xBB0B4703, 0x220216B9, 0x5505262F,
  0xC5BA3BBE, 0xB2BD0B28, 0x2BB45A92, 0x5CB36A04, 0xC2D7FFA7, 0xB5D0CF31, 0x2CD99E8B, 0x5BDEAE1D,
  0x9B64C2B0, 0xEC63F226, 0x756AA39C, 0x026D930A, 0x9C0906A9, 0xEB0E363F, 0x72076785, 0x05005713,
  0x95BF4A82, 0xE2B87A14, 0x7BB12BAE, 0x0CB61B38, 0x92D28E9B, 0xE5D5BE0D, 0x7CDCEFB7, 0x0BDBDF21,
  0x86D3D2D4, 0xF1D4E242, 0x68DDB3F8, 0x1FDA836E, 0x81BE16CD, 0xF6B9265B, 0x6FB077E1, 0x18B74777,
  0x88085AE6, 0xFF0F6A70, 0x66063BCA, 0x11010B5C, 0x8F659EFF, 0xF862AE69, 0x616BFFD3, 0x166CCF45,
  0xA00AE278, 0xD70DD2EE, 0x4E048354, 0x3903B3C2, 0xA7672661, 0xD06016F7, 0x4969474D, 0x3E6E77DB,
  0xAED16A4A, 0xD9D65ADC, 0x40DF0B66, 0x37D83BF0, 0xA9BCAE53, 0xDEBB9EC5, 0x47B2CF7F, 0x30B5FFE9,
  0xBDBDF21C, 0xCABAC28A, 0x53B39330, 0x24B4A3A6, 0xBAD03605, 0xCDD70693, 0x54DE5729, 0x23D967BF,
  0xB3667A2E, 0xC4614AB8, 0x5D681B02, 0x2A6F2B94, 0xB40BBE37, 0xC30C8EA1, 0x5A05DF1B, 0x2D02EF8D]

/-- One step of the table-driven CRC loop of `crc32`:
`*crc ^= byte; *crc = table[(uint8_t)*crc] ^ *crc >> 8;`. -/
def crcStep (c b : Nat) : Nat :=
  (crcTable.getD ((c ^^^ b % 256) % 256) 0) ^^^ (c ^^^ b % 256) / 256

/-- `crc32(data, n_bytes, &crc)`: fold `crcStep` over the bytes. -/
def crcFold (bs : List Nat) (c : Nat) : Nat := bs.foldl crcStep c

/-- The 4096-byte chunks the restore loop hands to `crc32`
(`for (size_t i = 0; i < le->size; i += kBlockSize)`). -/
def blockChunks (size : Nat) (buffer : List Nat) : List (List Nat) :=
  (List.range ((size + 4095) / 4096)).map (fun j => (buffer.drop (4096 * j)).take 4096)

/-- The checksum `cp_restoreCheckpoint` computes for one log entry:
initial register `le->source / (kBlockSize / kSectorSize)` truncated to
`uint32_t`, then `crc32` folded over each 4096-byte block of the payload
without resetting between blocks. -/
def entryChecksum (e : LogEntry) (buffer : List Nat) : Nat :=
  (blockChunks e.size buffer).foldl (fun c b => crcFold b c) (e.source / 8 % 2 ^ 32)

/-- One bit-step of the reference CRC-32 table generator for the reflected
polynomial 0xEDB88320. -/
def crcPolyStep (c : Nat) : Nat := if c % 2 = 1 then c / 2 ^^^ 0xEDB88320 else c / 2

/-- Iterate `crcPolyStep`. -/
def crcPolyIter : Nat → Nat → Nat
  | 0, c => c
  | k + 1, c => crcPolyIter k (crcPolyStep c)

/-- The table-driven CRC-32 table generated from the reflected polynomial
0xEDB88320: entry `n` is eight bit-steps applied to `n`. -/
def crcGenTable : List Nat := (List.range 256).map (fun n => crcPolyIter 8 n)

theorem remapSector_append (logs : List LogEntry) (e : LogEntry) (s : Nat) :
    remapSector (logs ++ [e]) s = remapSector logs (remapStep s e) := by
  unfold remapSector
  rw [List.foldr_append]
  rfl

theorem remapSector_id (logs : List LogEntry) (s : Nat)
    (h : ∀ l ∈ logs, ¬ covers l s) : remapSector logs s = s := by
  induction logs with
  | nil => rfl
  | cons l ls ih =>
    have h1 : ∀ x ∈ ls, ¬ covers x s := fun x hx => h x (List.mem_cons_of_mem _ hx)
    have h2 : ¬ covers l s := h l (List.mem_cons_self _ _)
    show remapStep (remapSector ls s) l = s
    rw [ih h1]
    unfold remapStep
    rw [if_neg h2]

/-- C4 counterexample: with the table `[entA, entB]` (where `entB = ⟨0, 8, _⟩`
is the most recently appended entry and `entA = ⟨8, 16, _⟩` an older one), a
read of sector 0 is first redirected by `entB` to sector 8, and the scan then
continues through the older `entA`, which redirects again to sector 16.  The
claim predicts resolution to `entB.dest + (0 - entB.source) = 8` with no
further redirection, but the code resolves to 16. -/
theorem c4_first_match_only_refuted :
    remapSector [entA, entB] 0 = 16 ∧ newestMatchResolve [entA, entB] 0 = 8 ∧
      (16 : Nat) ≠ 8 := by decide

/-- C4 (amended): a remapped read of sector `s` scans the table from the most
recently appended entry backwards; the first covering entry redirects the
sector, and the scan then continues through the remaining (older) entries
with the redirected sector, so chained redirection can occur.  When no entry
of the table covers `s`, the read resolves to `s` itself (a direct device
read). -/
theorem c4_remap_chained_resolution :
    (∀ (logs : List LogEntry) (e : LogEntry) (s : Nat),
        remapSector (logs ++ [e]) s = remapSector logs (remapStep s e)) ∧
    (∀ (logs : List LogEntry) (s : Nat),
        (∀ l ∈ logs, ¬ covers l s) → remapSector logs s = s) :=
  ⟨remapSector_append, remapSector_id⟩

/-- Witness for C4 (amended) at concrete inputs: appending `entB` to the
one-entry table `[entA]` makes the read of sector 0 resolve through both
entries, and a sector covered by no entry (sector 100) reads directly. -/
theorem c4_remap_chained_resolution_witness :
    remapSector ([entA] ++ [entB]) 0 = remapSector [entA] (remapStep 0 entB) ∧
      remapSector [entA, entB] 100 = 100 :=
  ⟨c4_remap_chained_resolution.1 [entA] entB 0,
   c4_remap_chained_resolution.2 [entA, entB] 100 (by decide)⟩

theorem blockChunks_flatten : ∀ (blocks : List (List Nat)),
    (∀ b ∈ blocks, b.length = 4096) →
    blockChunks (4096 * blocks.length) blocks.flatten = blocks := by
  intro blocks
  induction blocks with
  | nil => intro _; rfl
  | cons b bs ih =>
    intro h
    have hb : b.length = 4096 := h b (List.mem_cons_self _ _)
    have ih' := ih (fun x hx => h x (List.mem_cons_of_mem _ hx))
    have hcount : (4096 * (b :: bs).length + 4095) / 4096 = bs.length + 1 := by
      simp only [List.length_cons]
      omega
    have hcount2 : (4096 * bs.length + 4095) / 4096 = bs.length := by omega
    unfold blockChunks at ih' ⊢
    rw [hcount]
    rw [hcount2] at ih'
    rw [List.range_succ_eq_map, List.map_cons, List.map_map]
    have hhead : ((b :: bs).flatten.drop (4096 * 0)).take 4096 = b := by
      rw [List.flatten_cons, Nat.mul_zero, List.drop_zero, ← hb, List.take_left]
    rw [hhead]
    have htail : ∀ j, (((b :: bs).flatten.drop (4096 * Nat.succ j)).take 4096) =
        ((bs.flatten.drop (4096 * j)).take 4096) := by
      intro j
      rw [List.flatten_cons]
      have hs : 4096 * Nat.succ j = b.length + 4096 * j := by omega
      rw [hs, List.drop_append]
    congr 1
    have heq : List.map
        ((fun j => List.take 4096 (List.drop (4096 * j) (b :: bs).flatten)) ∘ Nat.succ)
        (List.range bs.length) =
        List.map (fun j => List.take 4096 (List.drop (4096 * j) bs.flatten))
          (List.range bs.length) :=
      List.map_congr_left (fun j _ => htail j)
    rw [heq, ih']

/-- C9: the checksum `cp_restoreCheckpoint` computes for a log entry `E`
whose payload is the blocks `b_1, ..., b_k` (each 4096 bytes, with
`E.size = k * 4096`) is the chained table-driven CRC-32: the hard-coded
table of `crc32` equals the table generated from the reflected polynomial
0xEDB88320, and the checksum is `fold_block` composed over the blocks in
order, starting from the register value `E.source / 8` (as a `uint32_t`),
with no reset between blocks and no final XOR. -/
theorem c9_crc_chaining :
    crcTable = crcGenTable ∧
    ∀ (e : LogEntry) (blocks : List (List Nat)),
      (∀ b ∈ blocks, b.length = 4096) →
      e.size = 4096 * blocks.length →
      entryChecksum e blocks.flatten =
        blocks.foldl (fun c b => crcFold b c) (e.source / 8 % 2 ^ 32) := by
  constructor
  · set_option maxRecDepth 4000 in decide
  · intro e blocks hlen hsize
    unfold entryChecksum
    rw [hsize, blockChunks_flatten blocks hlen]

/-- Witness for C9 at a concrete input: a single-block payload of 4096 zero
bytes for the entry `entA` (`source = 8`, `size = 4096`). -/
theorem c9_crc_chaining_witness :
    (∀ b ∈ [List.replicate 4096 0], List.length b = 4096) ∧
    entA.size = 4096 * [List.replicate 4096 0].length ∧
    entryChecksum entA [List.replicate 4096 0].flatten =
      [List.replicate 4096 0].foldl (fun c b => crcFold b c) (entA.source / 8 % 2 ^ 32) := by
  refine ⟨?_, ?_, ?_⟩
  · intro b hb
    rw [List.mem_singleton] at hb
    rw [hb, List.length_replicate]
  · rfl
  · exact c9_crc_chaining.2 entA [List.replicate 4096 0]
      (by intro b hb; rw [List.mem_singleton] at hb; rw [hb, List.length_replicate]) rfl

/-- Number of 4096-byte blocks the sector-by-sector `read` overload and the
checksum loop touch for a payload of `size` bytes. -/
def nBlocks (size : Nat) : Nat := (size + 4095) / 4096

/-- The validating `read` overload: `size` bytes starting at sector `sector`,
read block by block, each block's sector redirected through the accumulated
log entries (`for (uint32_t i = 0; i < size; i += kBlockSize, sector +=
kBlockSize / kSectorSize) read(device, logs, sector, &buffer[i])`). -/
def readRemapped (d : Device) (logs : List LogEntry) (sector size : Nat) : List Nat :=
  (((List.range (nBlocks size)).map
    (fun j => readBytes d (remapSector logs (sector + 8 * j) * 512) 4096)).flatten).take size

/-- The non-validating branch of `read`: `size` bytes directly at
`sector * kSectorSize`. -/
def readDirect (d : Device) (sector size : Nat) : List Nat :=
  readBytes d (sector * 512) size

/-- `read(device, logs, validating, sector, size)`. -/
def readPass (validating : Bool) (d : Device) (logs : List LogEntry)
    (sector size : Nat) : List Nat :=
  if validating then readRemapped d logs sector size else readDirect d sector size

/-- `MAGIC is BOW in ascii`. -/
def kMagic : Nat := 0x00574f42

/-- The error conditions `cp_restoreCheckpoint` can hit inside its log-sector
loop. -/
inductive RErr
  | noMagic
  | seqMismatch
  | badChecksum
deriving DecidableEq

/-- The state of one pass of `cp_restoreCheckpoint`: the device, the
accumulated `std::vector<log_entry> logs`, and the `Status status`
(`none` = `Status::ok()`). -/
structure PassState where
  dev : Device
  logs : List LogEntry
  err : Option RErr

/-- The body of the innermost loop of `cp_restoreCheckpoint`, for one log
entry `le`: read the payload at `le->dest` (through the remap table when
validating, directly otherwise), recompute the chained CRC, fail with
"Checksums don't match" when a nonzero stored checksum disagrees, append the
entry to `logs`, and, when not validating, write the payload back to
`le->source`.  A state that already failed is passed through unchanged (the
C++ `break` plus the `status.isOk()` loop condition). -/
def processEntry (validating : Bool) (s : PassState) (e : LogEntry) : PassState :=
  if s.err ≠ none then s
  else if e.checksum ≠ 0 ∧
      entryChecksum e (readPass validating s.dev s.logs e.dest e.size) ≠ e.checksum then
    { s with err := some .badChecksum }
  else if validating then { s with logs := s.logs ++ [e] }
  else
    { s with
        logs := s.logs ++ [e],
        dev := writeBytes s.dev (e.source * 512) e.size
          (readPass validating s.dev s.logs e.dest e.size) }

/-- Parse the packed `log_entry` at index `i` of the log sector whose block
starts at byte offset `base` (the header is 20 bytes, each entry 24). -/
def parseEntry (d : Device) (base i : Nat) : LogEntry :=
  ⟨leVal d (base + 20 + 24 * i) 8, leVal d (base + 28 + 24 * i) 8,
   leVal d (base + 36 + 24 * i) 4, leVal d (base + 40 + 24 * i) 4⟩

/-- The `count` log entries of the log sector at byte offset `base`. -/
def entriesAt (d : Device) (base count : Nat) : List LogEntry :=
  (List.range count).map (parseEntry d base)

/-- The byte offset at which one iteration of the log-sector loop reads
sector 0: through the remap table when validating, directly otherwise. -/
def headerBase (validating : Bool) (logs : List LogEntry) : Nat :=
  (if validating then remapSector logs 0 else 0) * 512

/-- One iteration of `for (int sequence = ls.sequence; sequence >= 0 && ...)`:
re-read sector 0, check the magic and the expected sequence number, then
process the entries from index `count - 1` down to `0`. -/
def processSeq (validating : Bool) (s : PassState) (seq : Nat) : PassState :=
  if s.err ≠ none then s
  else if leVal s.dev (headerBase validating s.logs) 4 ≠ kMagic then
    { s with err := some .noMagic }
  else if leVal s.dev (headerBase validating s.logs + 8) 4 ≠ seq then
    { s with err := some .seqMismatch }
  else
    ((entriesAt s.dev (headerBase validating s.logs)
        (leVal s.dev (headerBase validating s.logs + 4) 4)).reverse).foldl
      (processEntry validating) s

/-- The sequence numbers the log-sector loop visits, counting down from `S`
to `0`; `ls.sequence` is a `uint32_t` stored into an `int`, so a value of
`2^31` or more turns negative and the loop body never runs. -/
def seqNums (S : Nat) : List Nat :=
  if S < 2 ^ 31 then (List.range (S + 1)).reverse else []

/-- One whole pass (validate when `validating`, apply otherwise) of
`cp_restoreCheckpoint` over the device, starting from an empty remap table
and `Status::ok()`. -/
def runPass (validating : Bool) (d : Device) (S : Nat) : PassState :=
  (seqNums S).foldl (processSeq validating) ⟨d, [], none⟩

/-- The result of `cp_restoreCheckpoint`: `ok` is `Status::ok()`,
`noMagicErr` the early `EINVAL` return for a missing magic on the first
header read of a pass, `applyErr` a failure of the apply pass after
validation passed. -/
inductive RunStatus
  | ok
  | noMagicErr
  | applyErr (e : RErr)
deriving DecidableEq

/-- Final outcome of `cp_restoreCheckpoint`: returned status and the device
contents afterwards. -/
structure RunResult where
  status : RunStatus
  dev : Device

/-- `cp_restoreCheckpoint(blockDevice)`: the validating pass first (reads
only); if its first header read lacks the magic, return `EINVAL`
immediately; if validation fails later, roll forward by copying the 4096
bytes at the first header's `sector0` (read directly, `validating == false`)
over sector 0 and return success; otherwise run the apply pass, whose own
failures are returned as given. -/
def restoreRun (d : Device) : RunResult :=
  if leVal d 0 4 ≠ kMagic then ⟨.noMagicErr, d⟩
  else
    match (runPass true d (leVal d 8 4)).err with
    | some _ =>
      ⟨.ok, writeBytes (runPass true d (leVal d 8 4)).dev 0 4096
        (readBytes (runPass true d (leVal d 8 4)).dev (leVal d 12 8 * 512) 4096)⟩
    | none =>
      if leVal (runPass true d (leVal d 8 4)).dev 0 4 ≠ kMagic then
        ⟨.noMagicErr, (runPass true d (leVal d 8 4)).dev⟩
      else
        match (runPass false (runPass true d (leVal d 8 4)).dev
            (leVal (runPass true d (leVal d 8 4)).dev 8 4)).err with
        | some e =>
          ⟨.applyErr e, (runPass false (runPass true d (leVal d 8 4)).dev
            (leVal (runPass true d (leVal d 8 4)).dev 8 4)).dev⟩
        | none =>
          ⟨.ok, (runPass false (runPass true d (leVal d 8 4)).dev
            (leVal (runPass true d (leVal d 8 4)).dev 8 4)).dev⟩

/-- A concrete device given by its finitely many nonzero bytes. -/
def devOf (ps : List (Nat × Nat)) : Device :=
  fun i => (((ps.find? (fun p => p.1 == i)).map Prod.snd).getD 0)

set_option maxRecDepth 1000000

/-- Roll-forward as the specification's words describe it: the pre-image of
block 0 is read starting at the first header's `sector0` field *through the
RemapTable accumulated so far*, then written to sector 0.  This definition
follows the spec's words, for comparison with the source's roll-forward in
`restoreRun`, which passes `validating = false` to `read` and therefore
reads directly. -/
def rollForwardThroughTable (d : Device) : Device :=
  let p1 := runPass true d (leVal d 8 4)
  writeBytes p1.dev 0 4096 (readRemapped p1.dev p1.logs (leVal d 12 8) 4096)

/-- The all-zero device: its first header read has no magic. -/
def devNoMagic : Device := devOf []

/-- A device whose header has the magic, `count = 0`, `sequence = 1` and
`sector0 = 8`, with byte 55 at the start of sector 8: validation fails with
a sequence mismatch on the second loop iteration (the re-read header still
says 1), triggering roll-forward. -/
def devW2 : Device := devOf [(0, 0x42), (1, 0x4f), (2, 0x57), (8, 1), (12, 8), (4096, 55)]

/-- A device with header `{magic, count = 1, sequence = 1, sector0 = 16}`
and the entry `{source = 16, dest = 24, size = 4096, checksum = 0}`:
validation accepts the entry (sequence 1), then fails with a sequence
mismatch at expected sequence 0.  The accepted entry covers sector 16, so a
through-the-table read of `sector0 = 16` would be redirected to sector 24
(first byte 222), while a direct read gives sector 16's first byte 111. -/
def devC3 : Device := devOf [(0, 0x42), (1, 0x4f), (2, 0x57), (4, 1), (8, 1), (12, 16),
  (20, 16), (28, 24), (37, 16), (8192, 111), (12288, 222)]

/-- A device with header `{magic, count = 1, sequence = 0, sector0 = 24}`
and the entry `{source = 8, dest = 16, size = 512, checksum = 0}`, whose
`size` is not a multiple of 4096; the first payload byte (sector 16) is
99. -/
def devC5 : Device := devOf [(0, 0x42), (1, 0x4f), (2, 0x57), (4, 1), (12, 24),
  (20, 8), (28, 16), (37, 2), (8192, 99)]

/-- A device with header `{magic, count = 1, sequence = 0, sector0 = 0}` and
the entry `{source = 0, dest = 8, size = 4096, checksum = 0}`; sector 8
holds a second, fake header `{magic, count = 0, sequence = 7, sector0 = 16}`
which the apply pass copies over sector 0. -/
def devC6 : Device := devOf [(0, 0x42), (1, 0x4f), (2, 0x57), (4, 1), (28, 8), (37, 16),
  (4096, 0x42), (4097, 0x4f), (4098, 0x57), (4104, 7), (4108, 16)]

/-- C2 counterexample: on the all-zero device the very first read of sector 0
has no magic, and `cp_restoreCheckpoint` returns the `EINVAL` "No magic"
error with the device untouched — it does *not* write a pre-image to sector
0 and does *not* return success, contrary to the claim's "including a magic
mismatch on the very first read of sector 0". -/
theorem c2_initial_magic_error_refuted :
    (restoreRun devNoMagic).status = RunStatus.noMagicErr ∧
      RunStatus.noMagicErr ≠ RunStatus.ok ∧ (restoreRun devNoMagic).dev 0 = 0 := by
  decide

/-- C3 counterexample: on `devC3`, validation fails after accepting the
entry `{source = 16, dest = 24, size = 4096}`, and the code's roll-forward
writes byte 111 to offset 0 — the *direct* read of `sector0 = 16` — whereas
reading through the accumulated RemapTable (as the claim states) would
redirect sector 16 to sector 24 and write byte 222. -/
theorem c3_rollforward_remap_refuted :
    (runPass true devC3 (leVal devC3 8 4)).logs = [⟨16, 24, 4096, 0⟩] ∧
    (restoreRun devC3).status = RunStatus.ok ∧
    (restoreRun devC3).dev 0 = 111 ∧
    rollForwardThroughTable devC3 0 = 222 ∧ (111 : Nat) ≠ 222 := by
  decide

/-- C5: a log entry whose `size` (512) is not a multiple of 4096 is *not*
treated as `InvalidFormat`: validation accepts it (`logs` contains it, no
error), the apply pass replays it (the payload byte 99 from sector 16 is
copied to sector 8, byte offset 4096), and restore returns success instead
of the roll-forward the claim's `InvalidFormat` would trigger. -/
theorem c5_size_multiple_not_checked :
    (runPass true devC5 (leVal devC5 8 4)).err = none ∧
    (runPass true devC5 (leVal devC5 8 4)).logs = [⟨8, 16, 512, 0⟩] ∧
    (restoreRun devC5).status = RunStatus.ok ∧
    (restoreRun devC5).dev 4096 = 99 ∧
    (restoreRun devC5).dev 0 = 66 := by
  decide

/-- C6 counterexample: `devC6` validates successfully (a valid bow log), and
one run of restore replaces block 0 with the fake header stored at sector 8
(first byte 66).  A second run then reads that fake header (`sequence = 7`),
fails validation with a sequence mismatch, and rolls forward by copying the
zero block at its `sector0 = 16` over sector 0 (first byte 0): the device
contents after two runs differ from the contents after one run. -/
theorem c6_idempotence_refuted :
    (runPass true devC6 (leVal devC6 8 4)).err = none ∧
    (restoreRun devC6).status = RunStatus.ok ∧
    (restoreRun devC6).dev 0 = 66 ∧
    (restoreRun ((restoreRun devC6).dev)).status = RunStatus.ok ∧
    (restoreRun ((restoreRun devC6).dev)).dev 0 = 0 ∧ (66 : Nat) ≠ 0 := by
  decide

theorem entriesFold_dev_validating (E : List LogEntry) :
    ∀ st : PassState, (E.foldl (processEntry true) st).dev = st.dev := by
  induction E with
  | nil => intro st; rfl
  | cons e es ih =>
    intro st
    rw [List.foldl_cons, ih]
    unfold processEntry
    split
    · rfl
    · split
      · rfl
      · rfl

theorem runPass_true_dev (d : Device) (S : Nat) : (runPass true d S).dev = d := by
  have h : ∀ (L : List Nat) (st : PassState), (L.foldl (processSeq true) st).dev = st.dev := by
    intro L
    induction L with
    | nil => intro st; rfl
    | cons a as ih =>
      intro st
      rw [List.foldl_cons, ih]
      unfold processSeq
      split
      · rfl
      · split
        · rfl
        · split
          · rfl
          · exact entriesFold_dev_validating _ _
  exact h _ _

/-- C2 (amended): when the very first header read of the validating pass has
the magic but validation later fails inside the log-sector loop (any magic,
sequence or checksum failure there), `cp_restoreCheckpoint` does not attempt
the apply pass: it writes the 4096-byte pre-image found at the first
header's `sector0` field back to sector 0 and returns success.  When the
magic is missing on the very first read of sector 0, however, it returns
the `EINVAL` "No magic" error immediately, with no write. -/
theorem c2_rollforward_on_loop_failure :
    (∀ (d : Device) (e : RErr),
        leVal d 0 4 = kMagic →
        (runPass true d (leVal d 8 4)).err = some e →
        restoreRun d = ⟨RunStatus.ok,
          writeBytes d 0 4096 (readBytes d (leVal d 12 8 * 512) 4096)⟩) ∧
    (∀ d : Device, leVal d 0 4 ≠ kMagic → restoreRun d = ⟨RunStatus.noMagicErr, d⟩) := by
  constructor
  · intro d e hm herr
    unfold restoreRun
    rw [if_neg (fun hc => hc hm), herr, runPass_true_dev]
  · intro d hm
    unfold restoreRun
    rw [if_pos hm]

/-- Witness for C2 (amended): `devW2` fails validation with a sequence
mismatch and rolls forward; the all-zero device fails the initial magic
check and errors out. -/
theorem c2_rollforward_on_loop_failure_witness :
    leVal devW2 0 4 = kMagic ∧
    (runPass true devW2 (leVal devW2 8 4)).err = some RErr.seqMismatch ∧
    restoreRun devW2 = ⟨RunStatus.ok,
      writeBytes devW2 0 4096 (readBytes devW2 (leVal devW2 12 8 * 512) 4096)⟩ ∧
    leVal devNoMagic 0 4 ≠ kMagic ∧
    restoreRun devNoMagic = ⟨RunStatus.noMagicErr, devNoMagic⟩ :=
  ⟨by decide, by decide,
   c2_rollforward_on_loop_failure.1 devW2 RErr.seqMismatch (by decide) (by decide),
   by decide,
   c2_rollforward_on_loop_failure.2 devNoMagic (by decide)⟩

/-- C3 (amended): in the roll-forward fallback the validating pass has made
no writes, and the 4096-byte pre-image of block 0 is read *directly* from
the device at the first header's `sector0` field — the `read` call passes
`validating = false`, so the RemapTable accumulated during validation is
bypassed — before being written to sector 0. -/
theorem c3_rollforward_direct_read :
    ∀ (d : Device) (e : RErr),
      leVal d 0 4 = kMagic →
      (runPass true d (leVal d 8 4)).err = some e →
      (runPass true d (leVal d 8 4)).dev = d ∧
      (restoreRun d).dev = writeBytes d 0 4096 (readDirect d (leVal d 12 8) 4096) := by
  intro d e hm herr
  refine ⟨runPass_true_dev d _, ?_⟩
  unfold restoreRun
  rw [if_neg (fun hc => hc hm), herr, runPass_true_dev]
  rfl

/-- Witness for C3 (amended) at the device `devC3`. -/
theorem c3_rollforward_direct_read_witness :
    leVal devC3 0 4 = kMagic ∧
    (runPass true devC3 (leVal devC3 8 4)).err = some RErr.seqMismatch ∧
    (runPass true devC3 (leVal devC3 8 4)).dev = devC3 ∧
    (restoreRun devC3).dev =
      writeBytes devC3 0 4096 (readDirect devC3 (leVal devC3 12 8) 4096) :=
  ⟨by decide, by decide,
   (c3_rollforward_direct_read devC3 RErr.seqMismatch (by decide) (by decide)).1,
   (c3_rollforward_direct_read devC3 RErr.seqMismatch (by decide) (by decide)).2⟩

/-- `android::hardware::boot::V1_0::BoolResult`. -/
inductive BoolResult
  | TRUE
  | FALSE
  | INVALID
deriving DecidableEq, BEq

/-- The boot-control HAL as the lifecycle code consults it: the answer of
`isSlotMarkedSuccessful(getCurrentSlot())`, the current slot's suffix as
delivered by the `getSuffix` callback, and whether the `getSuffix`
transport call succeeds (`isOk`). -/
structure BootHal where
  slotSuccessful : BoolResult
  suffix : String
  suffixOk : Bool

/-- `binder::Status` as the lifecycle operations produce it: `ok` or an
exception with a code (`Status::fromExceptionCode`). -/
inductive CStatus
  | ok
  | exception (code : Nat)
deriving DecidableEq

/-- The `EINVAL` error code. -/
def EINVAL : Nat := 22

/-- `cp_startCheckpoint(retry)`: reject `retry < -1` with `EINVAL`;
otherwise write `std::to_string(retry + 1)`, with `" " + suffix` appended
when `retry == -1` and the boot-control HAL is available and its
`getSuffix` call is ok.  The second component is the metadata file contents
written (`none` when nothing was written). -/
def cp_startCheckpoint (retry : Int) (hal : Option BootHal) : CStatus × Option String :=
  if retry < -1 then (.exception EINVAL, none)
  else
    (.ok, some (toString (retry + 1) ++
      (if retry = -1 then
        match hal with
        | some h => if h.suffixOk then " " ++ h.suffix else ""
        | none => ""
      else "")))

/-- `cp_needsRollback()`: true iff the metadata file reads `"0"`, or its
first three characters are `"-1 "` and the rest equals the current slot
suffix reported by the HAL. -/
def cp_needsRollback (file : Option String) (hal : Option BootHal) : Bool :=
  match file with
  | none => false
  | some content =>
    if content = "0" then true
    else if String.take content 3 = "-1 " then
      match hal with
      | some h => String.drop content 3 == (if h.suffixOk then h.suffix else "")
      | none => false
    else false

/-- Whether the HAL branch of `cp_needsCheckpoint` fires: a module is
present and reports the current slot as not marked successful. -/
def halNotSuccessful (hal : Option BootHal) : Bool :=
  match hal with
  | some h => h.slotSuccessful == BoolResult.FALSE
  | none => false

/-- `cp_needsCheckpoint()`: result and the new value of the in-process
`isCheckpointing` flag.  The HAL branch returns true and latches the flag;
otherwise, when the metadata file is readable, both the result and the flag
become `content != "0"`; when it is not, the flag is left untouched. -/
def cp_needsCheckpoint (hal : Option BootHal) (file : Option String)
    (isCheckpointing : Bool) : Bool × Bool :=
  if halNotSuccessful hal then (true, true)
  else
    match file with
    | some content => (content != "0", content != "0")
    | none => (false, isCheckpointing)

/-- The in-process lifecycle state that `cp_commitChanges` touches: the
metadata file contents (`none` = absent) and the `isCheckpointing` latch. -/
structure ClmState where
  file : Option String
  isCheckpointing : Bool
deriving DecidableEq

/-- The external collaborators `cp_commitChanges` drives, abstracted to
their success/failure: whether `/proc/mounts` is readable, whether every
per-mount remount / bow-state transition succeeds, and whether
`RemoveFileIfExists` succeeds (with its `errno` when it does not). -/
structure CommitEnv where
  mountsReadable : Bool
  mountOpsOk : Bool
  removeOk : Bool
  removeErrno : Nat
deriving DecidableEq

/-- `cp_commitChanges()`: an immediate `Status::ok()` when
`isCheckpointing` is false (nothing is touched, the metadata file
included); otherwise the mount walk, then the `vold.checkpoint_committed`
property, clearing `isCheckpointing`, and deleting the metadata file. -/
def cp_commitChanges (env : CommitEnv) (st : ClmState) : CStatus × ClmState :=
  if !st.isCheckpointing then (.ok, st)
  else if !env.mountsReadable then (.exception EINVAL, st)
  else if !env.mountOpsOk then (.exception EINVAL, st)
  else if !env.removeOk then
    (.exception env.removeErrno, { st with isCheckpointing := false })
  else (.ok, { file := none, isCheckpointing := false })

/-- The characters `strtoll` skips before the number (C `isspace`). -/
def isSpaceChar (c : Char) : Bool :=
  c == ' ' || c == '\t' || c == '\n' || c == '\x0b' || c == '\x0c' || c == '\r'

/-- `android::base::ParseInt<int>` on the retry token: `strtoll(s, &end, 10)`
(skip leading whitespace, optional sign, a maximal digit run) followed by
the checks that at least one digit was consumed (`s != end`), that nothing
follows the digits (`*end == '\0'`), and that the value is within the
`int` (32-bit) range. -/
def parseIntAndroid (t : String) : Option Int :=
  let signed : Int × List Char :=
    match t.toList.dropWhile isSpaceChar with
    | '-' :: rest => (-1, rest)
    | '+' :: rest => (1, rest)
    | cs => (1, cs)
  if signed.2 ≠ [] ∧ signed.2.all Char.isDigit = true then
    let v : Int := signed.1 *
      ((signed.2.foldl (fun a c => a * 10 + (c.toNat - 48)) 0 : Nat) : Int)
    if -(2 ^ 31) ≤ v ∧ v ≤ 2 ^ 31 - 1 then some v else none
  else none

/-- The prefix of `content` before the first space:
`content.substr(0, content.find_first_of(" "))`. -/
def firstToken (content : String) : String :=
  String.mk (content.toList.takeWhile (fun c => c ≠ ' '))

/-- `cp_markBootAttempt()`: a no-op success when the metadata file is
absent; otherwise parse the prefix of the contents before the first space
(`substr(0, find_first_of(" "))`) as an `int`; on parse failure return
`EINVAL` leaving the file alone; when the value is positive, rewrite the
file with its decrement; otherwise leave the file unchanged. -/
def cp_markBootAttempt (file : Option String) : CStatus × Option String :=
  match file with
  | none => (.ok, none)
  | some content =>
    match parseIntAndroid (firstToken content) with
    | none => (.exception EINVAL, some content)
    | some n => if 0 < n then (.ok, some (toString (n - 1))) else (.ok, some content)

/-- C1: with the boot-control HAL available and reporting current slot
suffix `"_a"`, `cp_startCheckpoint(-1)` succeeds but writes `"0 _a"` — the
code builds `std::to_string(retry + 1)`, which is `"0"` for `retry = -1`,
and then appends the suffix — not the `"-1 _a"` the claim (and the
RollbackArmed serialization read back by `cp_needsRollback`, which matches
only a `"-1 "` prefix) requires; the marker written is therefore never
recognized by `cp_needsRollback`. -/
theorem c1_start_rollback_marker_mismatch :
    cp_startCheckpoint (-1) (some ⟨BoolResult.TRUE, "_a", true⟩) =
      (CStatus.ok, some "0 _a") ∧
    "0 _a" ≠ "-1 _a" ∧
    cp_needsRollback (some "0 _a") (some ⟨BoolResult.TRUE, "_a", true⟩) = false ∧
    cp_needsRollback (some "-1 _a") (some ⟨BoolResult.TRUE, "_a", true⟩) = true := by
  decide

/-- C7 counterexample: `cp_commitChanges` invoked while `isCheckpointing`
is false returns success immediately and leaves an existing metadata file
(here `"1"`, as written by `cp_startCheckpoint(0)` before any
`cp_needsCheckpoint` call latches the flag) in place, contradicting "the
metadata file is absent" after every successful commit. -/
theorem c7_commit_noop_keeps_file :
    cp_startCheckpoint 0 none = (CStatus.ok, some "1") ∧
    cp_commitChanges ⟨true, true, true, 13⟩ ⟨some "1", false⟩ =
      (CStatus.ok, ⟨some "1", false⟩) ∧
    some "1" ≠ (none : Option String) := by
  decide

/-- C7 (amended): when `cp_commitChanges` is invoked with `isCheckpointing`
true and returns success, the metadata file is absent and the flag is false
afterwards; when it is invoked with `isCheckpointing` false it is a no-op
success that leaves the state — any existing metadata file included —
unchanged. -/
theorem c7_commit_clears_state_when_active :
    (∀ (env : CommitEnv) (st : ClmState),
        st.isCheckpointing = true →
        (cp_commitChanges env st).1 = CStatus.ok →
        (cp_commitChanges env st).2.file = none ∧
          (cp_commitChanges env st).2.isCheckpointing = false) ∧
    (∀ (env : CommitEnv) (st : ClmState),
        st.isCheckpointing = false → cp_commitChanges env st = (CStatus.ok, st)) := by
  constructor
  · intro env st hck hok
    obtain ⟨mr, mo, ro, rerr⟩ := env
    cases mr <;> cases mo <;> cases ro <;>
      simp_all [cp_commitChanges]
  · intro env st hck
    unfold cp_commitChanges
    rw [hck]
    rfl

/-- Witness for C7 (amended): a successful commit from an active state
clears the file and flag, and a commit from an inactive state is the
identity. -/
theorem c7_commit_clears_state_when_active_witness :
    ((cp_commitChanges ⟨true, true, true, 13⟩ ⟨some "1", true⟩).2.file = none ∧
      (cp_commitChanges ⟨true, true, true, 13⟩ ⟨some "1", true⟩).2.isCheckpointing = false) ∧
    cp_commitChanges ⟨true, true, true, 13⟩ ⟨some "4", false⟩ =
      (CStatus.ok, ⟨some "4", false⟩) :=
  ⟨c7_commit_clears_state_when_active.1 ⟨true, true, true, 13⟩ ⟨some "1", true⟩ rfl rfl,
   c7_commit_clears_state_when_active.2 ⟨true, true, true, 13⟩ ⟨some "4", false⟩ rfl⟩

/-- C8: `cp_markBootAttempt` is a no-op success when the metadata file is
absent; otherwise it parses the first space-delimited token of the file as
an integer `n`, rewrites the file to the decimal of `n - 1` exactly when
`n > 0` (leaving the file unchanged when `n ≤ 0`), and fails with `EINVAL`
when the token is unparseable. -/
theorem c8_mark_boot_attempt_behavior :
    (cp_markBootAttempt none = (CStatus.ok, none)) ∧
    (∀ (content : String) (n : Int),
        parseIntAndroid (firstToken content) = some n →
        (0 < n →
          cp_markBootAttempt (some content) = (CStatus.ok, some (toString (n - 1)))) ∧
        (n ≤ 0 → cp_markBootAttempt (some content) = (CStatus.ok, some content))) ∧
    (∀ content : String,
        parseIntAndroid (firstToken content) = none →
        cp_markBootAttempt (some content) = (CStatus.exception EINVAL, some content)) := by
  refine ⟨rfl, ?_, ?_⟩
  · intro content n hparse
    constructor
    · intro hpos
      unfold cp_markBootAttempt
      dsimp only
      rw [hparse]
      dsimp only
      rw [if_pos hpos]
    · intro hnp
      unfold cp_markBootAttempt
      dsimp only
      rw [hparse]
      dsimp only
      rw [if_neg (not_lt.mpr hnp)]
  · intro content hparse
    unfold cp_markBootAttempt
    dsimp only
    rw [hparse]

/-- Witness for C8 at concrete metadata contents: `"3 _a"` decrements to
`"2"`, a leading-whitespace token `"\t3"` also parses (as `strtoll` does)
and decrements to `"2"`, `"0"` stays `"0"`, and `"junk"` fails with
`EINVAL`. -/
theorem c8_mark_boot_attempt_behavior_witness :
    cp_markBootAttempt none = (CStatus.ok, none) ∧
    cp_markBootAttempt (some "3 _a") = (CStatus.ok, some "2") ∧
    cp_markBootAttempt (some "\t3") = (CStatus.ok, some "2") ∧
    cp_markBootAttempt (some "0") = (CStatus.ok, some "0") ∧
    cp_markBootAttempt (some "junk") = (CStatus.exception EINVAL, some "junk") :=
  ⟨c8_mark_boot_attempt_behavior.1,
   (c8_mark_boot_attempt_behavior.2.1 "3 _a" 3 (by decide)).1 (by decide),
   (c8_mark_boot_attempt_behavior.2.1 "\t3" 3 (by decide)).1 (by decide),
   (c8_mark_boot_attempt_behavior.2.1 "0" 0 (by decide)).2 (by decide),
   c8_mark_boot_attempt_behavior.2.2 "junk" (by decide)⟩

/-- C10 counterexample: when the boot-control HAL reports the current slot
as not marked successful, `cp_needsCheckpoint` returns true and latches the
flag to true even though the metadata file exists with contents exactly
`"0"`, contradicting the claim's unconditional "returns false and assigns
false". -/
theorem c10_hal_branch_overrides :
    cp_needsCheckpoint (some ⟨BoolResult.FALSE, "_a", true⟩) (some "0") true =
      (true, true) ∧
    ((true, true) : Bool × Bool) ≠ (false, false) := by
  decide

/-- C10 (amended): when the HAL branch does not fire (no module, or the
current slot is not reported as unsuccessful), a metadata file with
contents exactly `"0"` makes `cp_needsCheckpoint` return false and assign
false to the in-process `isCheckpointing` flag — clearing a previously
latched value, not only setting it. -/
theorem c10_needs_checkpoint_clears_latch :
    ∀ (hal : Option BootHal) (flag : Bool),
      halNotSuccessful hal = false →
      cp_needsCheckpoint hal (some "0") flag = (false, false) := by
  intro hal flag h
  unfold cp_needsCheckpoint
  rw [h]
  rfl

/-- Witness for C10 (amended): with no HAL module and a previously latched
flag, a `"0"` metadata file clears the latch. -/
theorem c10_needs_checkpoint_clears_latch_witness :
    cp_needsCheckpoint none (some "0") true = (false, false) :=
  c10_needs_checkpoint_clears_latch none true rfl

/-- Apply a list of writes (offset, count, bytes) to the device in order. -/
def applyWrites (d : Device) (ws : List (Nat × Nat × List Nat)) : Device :=
  ws.foldl (fun dv w => writeBytes dv w.1 w.2.1 w.2.2) d

/-- The value the most recent write of `ws` covering byte `i` assigns, if
any write covers it. -/
def lastWrite (ws : List (Nat × Nat × List Nat)) (i : Nat) : Option Nat :=
  ws.foldr
    (fun w acc =>
      match acc with
      | some v => some v
      | none =>
        if w.1 ≤ i ∧ i < w.1 + w.2.1 then some (w.2.2.getD (i - w.1) 0) else none)
    none

theorem applyWrites_eq_lastWrite :
    ∀ (ws : List (Nat × Nat × List Nat)) (d : Device) (i : Nat),
      applyWrites d ws i = (lastWrite ws i).getD (d i) := by
  intro ws
  induction ws with
  | nil => intro d i; rfl
  | cons w t ih =>
    intro d i
    show applyWrites (writeBytes d w.1 w.2.1 w.2.2) t i = (lastWrite (w :: t) i).getD (d i)
    have hcons : lastWrite (w :: t) i =
        (match lastWrite t i with
         | some v => some v
         | none =>
           if w.1 ≤ i ∧ i < w.1 + w.2.1 then some (w.2.2.getD (i - w.1) 0) else none) := rfl
    rw [ih, hcons]
    cases h : lastWrite t i with
    | some v => rfl
    | none =>
      show writeBytes d w.1 w.2.1 w.2.2 i =
        (if w.1 ≤ i ∧ i < w.1 + w.2.1 then some (w.2.2.getD (i - w.1) 0) else none).getD (d i)
      unfold writeBytes
      by_cases hc : w.1 ≤ i ∧ i < w.1 + w.2.1
      · rw [if_pos hc, if_pos hc, Option.getD_some]
      · rw [if_neg hc, if_neg hc, Option.getD_none]

theorem applyWrites_twice (ws : List (Nat × Nat × List Nat)) (d : Device) (i : Nat) :
    applyWrites (applyWrites d ws) ws i = applyWrites d ws i := by
  rw [applyWrites_eq_lastWrite ws (applyWrites d ws) i]
  cases h : lastWrite ws i with
  | some v =>
    rw [Option.getD_some, applyWrites_eq_lastWrite ws d i, h, Option.getD_some]
  | none => rw [Option.getD_none]

theorem lastWrite_none (ws : List (Nat × Nat × List Nat)) (i : Nat)
    (h : ∀ w ∈ ws, ¬ (w.1 ≤ i ∧ i < w.1 + w.2.1)) : lastWrite ws i = none := by
  induction ws with
  | nil => rfl
  | cons w t ih =>
    have ht : lastWrite t i = none := ih (fun x hx => h x (List.mem_cons_of_mem _ hx))
    have hcons : lastWrite (w :: t) i =
        (match lastWrite t i with
         | some v => some v
         | none =>
           if w.1 ≤ i ∧ i < w.1 + w.2.1 then some (w.2.2.getD (i - w.1) 0) else none) := rfl
    rw [hcons, ht]
    exact if_neg (h w (List.mem_cons_self _ _))

theorem applyWrites_untouched (ws : List (Nat × Nat × List Nat)) (d : Device) (i : Nat)
    (h : ∀ w ∈ ws, ¬ (w.1 ≤ i ∧ i < w.1 + w.2.1)) : applyWrites d ws i = d i := by
  rw [applyWrites_eq_lastWrite, lastWrite_none ws i h, Option.getD_none]

theorem readBytes_congr (d1 d2 : Device) (off n : Nat)
    (h : ∀ j < n, d1 (off + j) = d2 (off + j)) :
    readBytes d1 off n = readBytes d2 off n := by
  unfold readBytes
  apply List.map_congr_left
  intro j hj
  unfold readByte
  rw [h j (List.mem_range.mp hj)]

theorem leVal_congr (d1 d2 : Device) (off : Nat) :
    ∀ k, (∀ j, off ≤ j → j < off + k → d1 j = d2 j) → leVal d1 off k = leVal d2 off k := by
  intro k
  induction k generalizing off with
  | zero => intro _; rfl
  | succ m ih =>
    intro h
    unfold leVal readByte
    rw [h off (Nat.le_refl off) (by omega), ih (off + 1) (fun j h1 h2 => h j (by omega) (by omega))]

theorem readBytes_add (d : Device) (off a b : Nat) :
    readBytes d off (a + b) = readBytes d off a ++ readBytes d (off + a) b := by
  unfold readBytes
  rw [List.range_add, List.map_append, List.map_map]
  congr 1
  apply List.map_congr_left
  intro j _
  show readByte d (off + (a + j)) = readByte d (off + a + j)
  rw [Nat.add_assoc]

theorem readBytes_blocks (d : Device) :
    ∀ (n off : Nat),
      ((List.range n).map (fun j => readBytes d (off + 4096 * j) 4096)).flatten =
        readBytes d off (4096 * n) := by
  intro n
  induction n with
  | zero => intro off; rfl
  | succ m ih =>
    intro off
    rw [List.range_succ, List.map_append, List.flatten_append,
      show 4096 * (m + 1) = 4096 * m + 4096 from by ring, readBytes_add]
    rw [ih off]
    simp only [List.map_cons, List.map_nil, List.flatten_cons, List.flatten_nil,
      List.append_nil]

theorem readBytes_take (d : Device) (off n m : Nat) :
    (readBytes d off n).take m = readBytes d off (min m n) := by
  unfold readBytes
  rw [← List.map_take, List.take_range]

theorem size_le_blocks (size : Nat) : size ≤ 4096 * nBlocks size := by
  unfold nBlocks
  omega

theorem readRemapped_eq_direct (d : Device) (logs : List LogEntry) (sector size : Nat)
    (h : ∀ j < nBlocks size, remapSector logs (sector + 8 * j) = sector + 8 * j) :
    readRemapped d logs sector size = readDirect d sector size := by
  unfold readRemapped readDirect
  have hmap : (List.range (nBlocks size)).map
      (fun j => readBytes d (remapSector logs (sector + 8 * j) * 512) 4096) =
      (List.range (nBlocks size)).map
      (fun j => readBytes d (sector * 512 + 4096 * j) 4096) := by
    apply List.map_congr_left
    intro j hj
    rw [h j (List.mem_range.mp hj)]
    congr 1
    ring
  rw [hmap, readBytes_blocks, readBytes_take, Nat.min_eq_left (size_le_blocks size)]

theorem foldl_processEntry_stuck (b : Bool) :
    ∀ (L : List LogEntry) (st : PassState), st.err ≠ none →
      List.foldl (processEntry b) st L = st := by
  intro L
  induction L with
  | nil => intro st _; rfl
  | cons e t ih =>
    intro st h
    rw [List.foldl_cons, show processEntry b st e = st from by unfold processEntry; rw [if_pos h]]
    exact ih st h

theorem processEntry_accept_true (dv : Device) (P : List LogEntry) (e : LogEntry)
    (hc : ¬(e.checksum ≠ 0 ∧
        entryChecksum e (readPass true dv P e.dest e.size) ≠ e.checksum)) :
    processEntry true ⟨dv, P, none⟩ e = ⟨dv, P ++ [e], none⟩ := by
  unfold processEntry
  dsimp only
  rw [if_neg (fun h2 => h2 rfl), if_neg hc]
  rfl

theorem processEntry_accept_false (dv : Device) (P : List LogEntry) (e : LogEntry)
    (hc : ¬(e.checksum ≠ 0 ∧
        entryChecksum e (readPass false dv P e.dest e.size) ≠ e.checksum)) :
    processEntry false ⟨dv, P, none⟩ e =
      ⟨writeBytes dv (e.source * 512) e.size (readPass false dv P e.dest e.size),
        P ++ [e], none⟩ := by
  unfold processEntry
  dsimp only
  rw [if_neg (fun h2 => h2 rfl), if_neg hc]
  rfl

theorem processEntry_reject (b : Bool) (dv : Device) (P : List LogEntry) (e : LogEntry)
    (hc : e.checksum ≠ 0 ∧
        entryChecksum e (readPass b dv P e.dest e.size) ≠ e.checksum) :
    processEntry b ⟨dv, P, none⟩ e = ⟨dv, P, some RErr.badChecksum⟩ := by
  unfold processEntry
  dsimp only
  rw [if_neg (fun h2 => h2 rfl), if_pos hc]

theorem fold_validate (eAll : List LogEntry) (dv : Device)
    (hid : ∀ (P : List LogEntry) (e : LogEntry), (∀ x ∈ P, x ∈ eAll) → e ∈ eAll →
        readRemapped dv P e.dest e.size = readDirect dv e.dest e.size)
    (hck : ∀ e ∈ eAll,
        ¬(e.checksum ≠ 0 ∧ entryChecksum e (readDirect dv e.dest e.size) ≠ e.checksum)) :
    ∀ (L P : List LogEntry), P ++ L = eAll →
      List.foldl (processEntry true) ⟨dv, P, none⟩ L = ⟨dv, eAll, none⟩ := by
  intro L
  induction L with
  | nil =>
    intro P hP
    rw [List.append_nil] at hP
    rw [hP]
    rfl
  | cons e t ih =>
    intro P hP
    have hPsub : ∀ x ∈ P, x ∈ eAll := by
      intro x hx
      rw [← hP]
      exact List.mem_append.mpr (Or.inl hx)
    have heMem : e ∈ eAll := by
      rw [← hP]
      exact List.mem_append.mpr (Or.inr (List.mem_cons_self _ _))
    have hbuf : readPass true dv P e.dest e.size = readDirect dv e.dest e.size := by
      show readRemapped dv P e.dest e.size = _
      exact hid P e hPsub heMem
    have hc : ¬(e.checksum ≠ 0 ∧
        entryChecksum e (readPass true dv P e.dest e.size) ≠ e.checksum) := by
      rw [hbuf]
      exact hck e heMem
    rw [List.foldl_cons, processEntry_accept_true dv P e hc]
    exact ih (P ++ [e]) (by rw [List.append_assoc]; exact hP)

theorem fold_validate_extract (eAll : List LogEntry) (dv : Device)
    (hid : ∀ (P : List LogEntry) (e : LogEntry), (∀ x ∈ P, x ∈ eAll) → e ∈ eAll →
        readRemapped dv P e.dest e.size = readDirect dv e.dest e.size) :
    ∀ (L P : List LogEntry), P ++ L = eAll →
      (List.foldl (processEntry true) ⟨dv, P, none⟩ L).err = none →
      ∀ e ∈ L,
        ¬(e.checksum ≠ 0 ∧ entryChecksum e (readDirect dv e.dest e.size) ≠ e.checksum) := by
  intro L
  induction L with
  | nil =>
    intro P _ _ e he
    exact absurd he (List.not_mem_nil e)
  | cons e t ih =>
    intro P hP hok x hx
    have hPsub : ∀ y ∈ P, y ∈ eAll := by
      intro y hy
      rw [← hP]
      exact List.mem_append.mpr (Or.inl hy)
    have heMem : e ∈ eAll := by
      rw [← hP]
      exact List.mem_append.mpr (Or.inr (List.mem_cons_self _ _))
    have hbuf : readPass true dv P e.dest e.size = readDirect dv e.dest e.size := by
      show readRemapped dv P e.dest e.size = _
      exact hid P e hPsub heMem
    by_cases hc : e.checksum ≠ 0 ∧
        entryChecksum e (readDirect dv e.dest e.size) ≠ e.checksum
    · exfalso
      have hc2 : e.checksum ≠ 0 ∧
          entryChecksum e (readPass true dv P e.dest e.size) ≠ e.checksum := by
        rw [hbuf]
        exact hc
      rw [List.foldl_cons, processEntry_reject true dv P e hc2,
        foldl_processEntry_stuck true t _ (fun h2 => Option.noConfusion h2)] at hok
      exact Option.noConfusion hok
    · rcases List.mem_cons.mp hx with h1 | h2
      · rw [h1]
        exact hc
      · have hc2 : ¬(e.checksum ≠ 0 ∧
            entryChecksum e (readPass true dv P e.dest e.size) ≠ e.checksum) := by
          rw [hbuf]
          exact hc
        rw [List.foldl_cons, processEntry_accept_true dv P e hc2] at hok
        exact ih (P ++ [e]) (by rw [List.append_assoc]; exact hP) hok x h2

/-- The writes the apply pass performs, as (offset, count, bytes) triples:
for each entry in processing order, its payload read directly from the
reference device `d` is written to `source`. -/
def writesOf (d : Device) (P : List LogEntry) : List (Nat × Nat × List Nat) :=
  P.map (fun e => (e.source * 512, e.size, readDirect d e.dest e.size))

theorem fold_apply (eAll : List LogEntry) (d dv : Device)
    (hbufP : ∀ (P : List LogEntry), (∀ x ∈ P, x ∈ eAll) → ∀ e ∈ eAll,
        readDirect (applyWrites dv (writesOf d P)) e.dest e.size =
          readDirect d e.dest e.size)
    (hck : ∀ e ∈ eAll,
        ¬(e.checksum ≠ 0 ∧ entryChecksum e (readDirect d e.dest e.size) ≠ e.checksum)) :
    ∀ (L P : List LogEntry), P ++ L = eAll →
      List.foldl (processEntry false) ⟨applyWrites dv (writesOf d P), P, none⟩ L =
        ⟨applyWrites dv (writesOf d eAll), eAll, none⟩ := by
  intro L
  induction L with
  | nil =>
    intro P hP
    rw [List.append_nil] at hP
    rw [hP]
    rfl
  | cons e t ih =>
    intro P hP
    have hPsub : ∀ x ∈ P, x ∈ eAll := by
      intro x hx
      rw [← hP]
      exact List.mem_append.mpr (Or.inl hx)
    have heMem : e ∈ eAll := by
      rw [← hP]
      exact List.mem_append.mpr (Or.inr (List.mem_cons_self _ _))
    have hbuf : readPass false (applyWrites dv (writesOf d P)) P e.dest e.size =
        readDirect d e.dest e.size := by
      show readDirect (applyWrites dv (writesOf d P)) e.dest e.size = _
      exact hbufP P hPsub e heMem
    have hc : ¬(e.checksum ≠ 0 ∧ entryChecksum e
        (readPass false (applyWrites dv (writesOf d P)) P e.dest e.size) ≠ e.checksum) := by
      rw [hbuf]
      exact hck e heMem
    rw [List.foldl_cons, processEntry_accept_false _ P e hc, hbuf]
    have hw : writeBytes (applyWrites dv (writesOf d P)) (e.source * 512) e.size
        (readDirect d e.dest e.size) = applyWrites dv (writesOf d (P ++ [e])) := by
      unfold writesOf applyWrites
      rw [List.map_append, List.foldl_append]
      rfl
    rw [hw]
    exact ih (P ++ [e]) (by rw [List.append_assoc]; exact hP)

theorem runPass_zero (b : Bool) (d : Device)
    (hm : leVal d 0 4 = kMagic) (hs : leVal d 8 4 = 0) :
    runPass b d 0 =
      ((entriesAt d 0 (leVal d 4 4)).reverse).foldl (processEntry b) ⟨d, [], none⟩ := by
  unfold runPass
  rw [show seqNums 0 = [0] from rfl, List.foldl_cons, List.foldl_nil]
  unfold processSeq
  dsimp only
  rw [if_neg (fun hc => hc rfl), show headerBase b [] = 0 from by cases b <;> rfl,
    Nat.zero_add, Nat.zero_add, if_neg (fun hc => hc hm), if_neg (fun hc => hc hs)]

theorem entriesAt_congr (d1 d2 : Device) (count : Nat)
    (hagree : ∀ i < 20 + 24 * count, d1 i = d2 i) :
    entriesAt d1 0 count = entriesAt d2 0 count := by
  unfold entriesAt
  apply List.map_congr_left
  intro i hi
  have hi2 : i < count := List.mem_range.mp hi
  unfold parseEntry
  rw [leVal_congr d1 d2 (0 + 20 + 24 * i) 8 (fun j h1 h2 => hagree j (by omega)),
    leVal_congr d1 d2 (0 + 28 + 24 * i) 8 (fun j h1 h2 => hagree j (by omega)),
    leVal_congr d1 d2 (0 + 36 + 24 * i) 4 (fun j h1 h2 => hagree j (by omega)),
    leVal_congr d1 d2 (0 + 40 + 24 * i) 4 (fun j h1 h2 => hagree j (by omega))]

/-- C6 (amended): restore is idempotent on well-separated logs.  For a
device whose header has the magic and `sequence = 0`, whose entry table
fits in block 0, whose entries' `source` (write) byte ranges avoid block 0
and every entry's payload-read byte range, whose entries never cover (in
the remap sense) any payload-read sector, and whose validating pass
succeeds, `cp_restoreCheckpoint` succeeds, a second run also succeeds, and
the device contents after the second run equal the contents after the
first.  (The unrestricted claim fails: `c6_idempotence_refuted`.) -/
theorem c6_restore_idempotent_disjoint :
    ∀ d : Device,
      leVal d 0 4 = kMagic →
      leVal d 8 4 = 0 →
      20 + 24 * leVal d 4 4 ≤ 4096 →
      (∀ e ∈ entriesAt d 0 (leVal d 4 4), ∀ i : Nat,
          e.source * 512 ≤ i ∧ i < e.source * 512 + e.size → 4096 ≤ i) →
      (∀ e ∈ entriesAt d 0 (leVal d 4 4), ∀ e' ∈ entriesAt d 0 (leVal d 4 4), ∀ i : Nat,
          e.source * 512 ≤ i ∧ i < e.source * 512 + e.size →
          ¬(e'.dest * 512 ≤ i ∧ i < e'.dest * 512 + 4096 * nBlocks e'.size)) →
      (∀ e ∈ entriesAt d 0 (leVal d 4 4), ∀ e' ∈ entriesAt d 0 (leVal d 4 4),
          ∀ j, j < nBlocks e'.size → ¬ covers e (e'.dest + 8 * j)) →
      (runPass true d 0).err = none →
      (restoreRun d).status = RunStatus.ok ∧
      (restoreRun ((restoreRun d).dev)).status = RunStatus.ok ∧
      ∀ i : Nat, (restoreRun ((restoreRun d).dev)).dev i = (restoreRun d).dev i := by
  intro d hm hs hcount hsrc hdisj hcov hvalid
  have hidAll : ∀ (dv : Device) (P : List LogEntry) (e : LogEntry),
      (∀ x ∈ P, x ∈ (entriesAt d 0 (leVal d 4 4)).reverse) →
      e ∈ (entriesAt d 0 (leVal d 4 4)).reverse →
      readRemapped dv P e.dest e.size = readDirect dv e.dest e.size := by
    intro dv P e hPsub heMem
    apply readRemapped_eq_direct
    intro j hj
    apply remapSector_id
    intro l hl
    exact hcov l (List.mem_reverse.mp (hPsub l hl)) e (List.mem_reverse.mp heMem) j hj
  have hckd : ∀ e ∈ (entriesAt d 0 (leVal d 4 4)).reverse,
      ¬(e.checksum ≠ 0 ∧ entryChecksum e (readDirect d e.dest e.size) ≠ e.checksum) := by
    have hvalid2 : (List.foldl (processEntry true) ⟨d, [], none⟩
        ((entriesAt d 0 (leVal d 4 4)).reverse)).err = none := by
      rw [← runPass_zero true d hm hs]
      exact hvalid
    exact fold_validate_extract _ d (hidAll d) _ [] rfl hvalid2
  have hv1 : runPass true d 0 = ⟨d, (entriesAt d 0 (leVal d 4 4)).reverse, none⟩ := by
    rw [runPass_zero true d hm hs]
    exact fold_validate _ d (hidAll d) hckd _ [] rfl
  have hread : ∀ e' ∈ (entriesAt d 0 (leVal d 4 4)).reverse, ∀ i : Nat,
      (e'.dest * 512 ≤ i ∧ i < e'.dest * 512 + 4096 * nBlocks e'.size) →
      ∀ e ∈ (entriesAt d 0 (leVal d 4 4)).reverse,
        ¬(e.source * 512 ≤ i ∧ i < e.source * 512 + e.size) := by
    intro e' he' i hiR e he hiW
    exact hdisj e (List.mem_reverse.mp he) e' (List.mem_reverse.mp he') i hiW hiR
  have hlow : ∀ i : Nat, i < 4096 → ∀ e ∈ (entriesAt d 0 (leVal d 4 4)).reverse,
      ¬(e.source * 512 ≤ i ∧ i < e.source * 512 + e.size) := by
    intro i hi e he hcontra
    exact absurd (hsrc e (List.mem_reverse.mp he) i hcontra) (by omega)
  have huntouched : ∀ (dv : Device) (P : List LogEntry),
      (∀ x ∈ P, x ∈ (entriesAt d 0 (leVal d 4 4)).reverse) → ∀ i : Nat,
      (∀ e ∈ (entriesAt d 0 (leVal d 4 4)).reverse,
          ¬(e.source * 512 ≤ i ∧ i < e.source * 512 + e.size)) →
      applyWrites dv (writesOf d P) i = dv i := by
    intro dv P hPsub i hi
    apply applyWrites_untouched
    intro w hw
    rcases List.mem_map.mp hw with ⟨e, heP, rfl⟩
    exact hi e (hPsub e heP)
  have hDagree : ∀ i : Nat,
      (∀ e ∈ (entriesAt d 0 (leVal d 4 4)).reverse,
          ¬(e.source * 512 ≤ i ∧ i < e.source * 512 + e.size)) →
      applyWrites d (writesOf d ((entriesAt d 0 (leVal d 4 4)).reverse)) i = d i :=
    huntouched d _ (fun x hx => hx)
  have hinread : ∀ (e : LogEntry) (j : Nat), j < e.size →
      e.dest * 512 ≤ e.dest * 512 + j ∧
        e.dest * 512 + j < e.dest * 512 + 4096 * nBlocks e.size := by
    intro e j hj
    have := size_le_blocks e.size
    omega
  have hbufP1 : ∀ (P : List LogEntry),
      (∀ x ∈ P, x ∈ (entriesAt d 0 (leVal d 4 4)).reverse) →
      ∀ e ∈ (entriesAt d 0 (leVal d 4 4)).reverse,
        readDirect (applyWrites d (writesOf d P)) e.dest e.size =
          readDirect d e.dest e.size := by
    intro P hPsub e he
    unfold readDirect
    apply readBytes_congr
    intro j hj
    exact huntouched d P hPsub _ (hread e he _ (hinread e j hj))
  have hp2 : runPass false d 0 =
      ⟨applyWrites d (writesOf d ((entriesAt d 0 (leVal d 4 4)).reverse)),
        (entriesAt d 0 (leVal d 4 4)).reverse, none⟩ := by
    rw [runPass_zero false d hm hs]
    exact fold_apply _ d d hbufP1 hckd _ [] rfl
  have hrun1 : restoreRun d =
      ⟨RunStatus.ok, applyWrites d (writesOf d ((entriesAt d 0 (leVal d 4 4)).reverse))⟩ := by
    unfold restoreRun
    rw [if_neg (fun hc => hc hm), hs, hv1]
    dsimp only
    rw [if_neg (fun hc => hc hm), hs, hp2]
  have hagree2 : ∀ i : Nat, i < 4096 →
      applyWrites d (writesOf d ((entriesAt d 0 (leVal d 4 4)).reverse)) i = d i :=
    fun i hi => hDagree i (hlow i hi)
  have hm2 : leVal (applyWrites d (writesOf d ((entriesAt d 0 (leVal d 4 4)).reverse))) 0 4 =
      kMagic := by
    rw [leVal_congr _ d 0 4 (fun j h1 h2 => hagree2 j (by omega))]
    exact hm
  have hs2 : leVal (applyWrites d (writesOf d ((entriesAt d 0 (leVal d 4 4)).reverse))) 8 4 =
      0 := by
    rw [leVal_congr _ d 8 4 (fun j h1 h2 => hagree2 j (by omega))]
    exact hs
  have hcnt2 : leVal (applyWrites d (writesOf d ((entriesAt d 0 (leVal d 4 4)).reverse))) 4 4 =
      leVal d 4 4 :=
    leVal_congr _ d 4 4 (fun j h1 h2 => hagree2 j (by omega))
  have hE2 : entriesAt (applyWrites d (writesOf d ((entriesAt d 0 (leVal d 4 4)).reverse))) 0
      (leVal (applyWrites d (writesOf d ((entriesAt d 0 (leVal d 4 4)).reverse))) 4 4) =
      entriesAt d 0 (leVal d 4 4) := by
    rw [hcnt2]
    exact entriesAt_congr _ d _ (fun i hi => hagree2 i (by omega))
  have hagreeRead : ∀ e ∈ (entriesAt d 0 (leVal d 4 4)).reverse,
      readDirect (applyWrites d (writesOf d ((entriesAt d 0 (leVal d 4 4)).reverse)))
        e.dest e.size = readDirect d e.dest e.size := by
    intro e he
    unfold readDirect
    apply readBytes_congr
    intro j hj
    exact hDagree _ (hread e he _ (hinread e j hj))
  have hckD1 : ∀ e ∈ (entriesAt d 0 (leVal d 4 4)).reverse,
      ¬(e.checksum ≠ 0 ∧ entryChecksum e
          (readDirect (applyWrites d (writesOf d ((entriesAt d 0 (leVal d 4 4)).reverse)))
            e.dest e.size) ≠ e.checksum) := by
    intro e he
    rw [hagreeRead e he]
    exact hckd e he
  have hv2 : runPass true (applyWrites d (writesOf d ((entriesAt d 0 (leVal d 4 4)).reverse)))
      0 = ⟨applyWrites d (writesOf d ((entriesAt d 0 (leVal d 4 4)).reverse)),
        (entriesAt d 0 (leVal d 4 4)).reverse, none⟩ := by
    rw [runPass_zero _ _ hm2 hs2, hE2]
    exact fold_validate _ _ (hidAll _) hckD1 _ [] rfl
  have hbufP2 : ∀ (P : List LogEntry),
      (∀ x ∈ P, x ∈ (entriesAt d 0 (leVal d 4 4)).reverse) →
      ∀ e ∈ (entriesAt d 0 (leVal d 4 4)).reverse,
        readDirect (applyWrites
            (applyWrites d (writesOf d ((entriesAt d 0 (leVal d 4 4)).reverse)))
            (writesOf d P)) e.dest e.size = readDirect d e.dest e.size := by
    intro P hPsub e he
    unfold readDirect
    apply readBytes_congr
    intro j hj
    rw [huntouched _ P hPsub _ (hread e he _ (hinread e j hj))]
    exact hDagree _ (hread e he _ (hinread e j hj))
  have hp2b : runPass false
      (applyWrites d (writesOf d ((entriesAt d 0 (leVal d 4 4)).reverse))) 0 =
      ⟨applyWrites (applyWrites d (writesOf d ((entriesAt d 0 (leVal d 4 4)).reverse)))
          (writesOf d ((entriesAt d 0 (leVal d 4 4)).reverse)),
        (entriesAt d 0 (leVal d 4 4)).reverse, none⟩ := by
    rw [runPass_zero _ _ hm2 hs2, hE2]
    exact fold_apply _ d _ hbufP2 hckd _ [] rfl
  have hrun2 : restoreRun (applyWrites d (writesOf d ((entriesAt d 0 (leVal d 4 4)).reverse)))
      = ⟨RunStatus.ok,
        applyWrites (applyWrites d (writesOf d ((entriesAt d 0 (leVal d 4 4)).reverse)))
          (writesOf d ((entriesAt d 0 (leVal d 4 4)).reverse))⟩ := by
    unfold restoreRun
    rw [if_neg (fun hc => hc hm2), hs2, hv2]
    dsimp only
    rw [if_neg (fun hc => hc hm2), hs2, hp2b]
  refine ⟨by rw [hrun1], ?_, ?_⟩
  · rw [hrun1]
    dsimp only
    rw [hrun2]
  · intro i
    rw [hrun1]
    dsimp only
    rw [hrun2]
    exact applyWrites_twice _ d i

/-- A well-separated single-entry device for the idempotence witness:
header `{magic, count = 1, sequence = 0, sector0 = 0}` and the entry
`{source = 8, dest = 16, size = 4096, checksum = 0}`. -/
def devW6 : Device := devOf [(0, 0x42), (1, 0x4f), (2, 0x57), (4, 1), (20, 8), (28, 16), (37, 16)]

/-- Witness for C6 (amended) at `devW6`, whose write range (bytes
4096-8191) avoids block 0 and the payload-read range (bytes 8192-12287). -/
theorem c6_restore_idempotent_disjoint_witness :
    (restoreRun devW6).status = RunStatus.ok ∧
    (restoreRun ((restoreRun devW6).dev)).status = RunStatus.ok ∧
    (restoreRun ((restoreRun devW6).dev)).dev 4096 = (restoreRun devW6).dev 4096 := by
  have hE : entriesAt devW6 0 (leVal devW6 4 4) = [⟨8, 16, 4096, 0⟩] := by decide
  have h := c6_restore_idempotent_disjoint devW6 (by decide) (by decide) (by decide)
    (by
      intro e he i hi
      rw [hE, List.mem_singleton] at he
      subst he
      change 4096 ≤ i ∧ i < 4096 + 4096 at hi
      omega)
    (by
      intro e he e' he' i hi
      rw [hE, List.mem_singleton] at he he'
      subst he
      subst he'
      change 4096 ≤ i ∧ i < 4096 + 4096 at hi
      change ¬(8192 ≤ i ∧ i < 8192 + 4096 * 1)
      omega)
    (by
      intro e he e' he' j hj
      rw [hE, List.mem_singleton] at he he'
      subst he
      subst he'
      change j < 1 at hj
      have hj0 : j = 0 := by omega
      subst hj0
      decide)
    (by decide)
  exact ⟨h.1, h.2.1, h.2.2 4096⟩

end Checkpoint
